import Mathlib

/-
Verification of the ecom-agent recommendation service (src/app.py, src/dbops.py).

Strings are modelled as `List Char` (abbrev `Str`).  Python string methods used
by the source are embedded directly: `str.replace` (replace all occurrences,
left to right), `str.strip` (both-ends whitespace strip), `str.startswith`,
`str.endswith`, the `in` substring test, and `str.lower`.  `json.loads` is
embedded as a recursive-descent parser `json_loads` producing `JsonVal`
(objects are association lists in insertion order; number lexemes are kept
verbatim, which is faithful for every property proved here since no claim
compares numbers parsed from distinct lexemes).

External collaborators (the generative backend, the commerce backend, the
PostgreSQL catalog, `random.sample`) are passed in as explicit parameters:
a backend call is an `Except` value (error = the call raised), the catalog is
a list of rows, and the sampler is a function together with the contract that
`random.sample` guarantees.
-/

set_option linter.unusedVariables false

set_option maxRecDepth 100000

abbrev Str := List Char

/-! ### Characters written numerically (backtick, braces, quote, backslash) -/

def tickChar : Char := Char.ofNat 96

def braceOpenChar : Char := Char.ofNat 123

def braceCloseChar : Char := Char.ofNat 125

def quoteChar : Char := Char.ofNat 34

def backslashChar : Char := Char.ofNat 92

/-! ### Python string primitives -/

/-- Whitespace for Python `str.strip` (ASCII fragment). -/
def isPyWs (c : Char) : Bool :=
  c = ' ' || c = '\t' || c = '\n' || c = '\r' || c = Char.ofNat 11 || c = Char.ofNat 12

def lstripStr (s : Str) : Str := s.dropWhile isPyWs

def rstripStr (s : Str) : Str := (s.reverse.dropWhile isPyWs).reverse

/-- Python `str.strip()`. -/
def pyStrip (s : Str) : Str := rstripStr (lstripStr s)

/-- Python `pat in s` (substring test). -/
def hasSubstr (pat : Str) : Str → Bool
  | [] => pat.isPrefixOf []
  | c :: cs => pat.isPrefixOf (c :: cs) || hasSubstr pat cs

/-- Python `s.endswith(pat)`. -/
def pyEndsWith (pat s : Str) : Bool := pat.reverse.isPrefixOf s.reverse

/-- Worker for Python `str.replace`: scan left to right, replacing every
occurrence of `pat`.  The fuel argument only bounds recursion; with fuel
`≥ s.length` (and a nonempty `pat`) it never runs out. -/
def replaceAllAux : Nat → Str → Str → Str → Str
  | 0, _, _, s => s
  | _ + 1, _, _, [] => []
  | n + 1, pat, repl, c :: cs =>
    if pat.isPrefixOf (c :: cs) then
      repl ++ replaceAllAux n pat repl (cs.drop (pat.length - 1))
    else
      c :: replaceAllAux n pat repl cs

/-- Python `s.replace(pat, repl)` (all occurrences; `pat` nonempty in every
use below, matching the source). -/
def replaceAll (pat repl s : Str) : Str := replaceAllAux s.length pat repl s

/-- Python `str.lower` (ASCII, which covers the catalog names and keywords). -/
def pyLower (s : Str) : Str := s.map Char.toLower

/-! ### JSON values and `json.loads` -/

inductive JsonVal : Type where
  | null : JsonVal
  | bool : Bool → JsonVal
  | num : Str → JsonVal
  | str : Str → JsonVal
  | arr : List JsonVal → JsonVal
  | obj : List (Str × JsonVal) → JsonVal

/-- JSON whitespace (exactly the four characters Python `json` skips). -/
def isJsonWs (c : Char) : Bool := c = ' ' || c = '\t' || c = '\n' || c = '\r'

def skipWs (s : Str) : Str := s.dropWhile isJsonWs

def isDigitChar (c : Char) : Bool := '0' ≤ c && c ≤ '9'

def hexVal (c : Char) : Option Nat :=
  if isDigitChar c then some (c.toNat - 48)
  else if 'a' ≤ c && c ≤ 'f' then some (c.toNat - 87)
  else if 'A' ≤ c && c ≤ 'F' then some (c.toNat - 55)
  else none

def escSimple (c : Char) : Option Char :=
  if c = quoteChar then some quoteChar
  else if c = backslashChar then some backslashChar
  else if c = '/' then some '/'
  else if c = 'b' then some (Char.ofNat 8)
  else if c = 'f' then some (Char.ofNat 12)
  else if c = 'n' then some '\n'
  else if c = 'r' then some '\r'
  else if c = 't' then some '\t'
  else none

/-- Body of a JSON string after the opening quote: returns the decoded
characters and the input remaining after the closing quote.  Strict mode:
unescaped control characters are rejected.  (`\uXXXX` maps the code unit with
`Char.ofNat`; surrogate-pair recombination is not modelled and no input used
in this development contains `\u` escapes.) -/
def parseStringBody : Str → Option (Str × Str)
  | [] => none
  | c :: cs =>
    if c = quoteChar then some ([], cs)
    else if c = backslashChar then
      match cs with
      | [] => none
      | e :: cs2 =>
        if e = 'u' then
          match cs2 with
          | h1 :: h2 :: h3 :: h4 :: cs3 =>
            match hexVal h1, hexVal h2, hexVal h3, hexVal h4 with
            | some a, some b, some c2, some d =>
              match parseStringBody cs3 with
              | some (s, r) => some (Char.ofNat (((a * 16 + b) * 16 + c2) * 16 + d) :: s, r)
              | none => none
            | _, _, _, _ => none
          | _ => none
        else
          match escSimple e with
          | some d =>
            match parseStringBody cs2 with
            | some (s, r) => some (d :: s, r)
            | none => none
          | none => none
    else if c.toNat < 32 then none
    else
      match parseStringBody cs with
      | some (s, r) => some (c :: s, r)
      | none => none

def spanDigits (s : Str) : Str × Str := (s.takeWhile isDigitChar, s.dropWhile isDigitChar)

/-- JSON integer part: `0` or a nonzero digit followed by digits. -/
def lexInt : Str → Option (Str × Str)
  | [] => none
  | c :: cs =>
    if c = '0' then some ([c], cs)
    else if isDigitChar c then
      some (c :: (spanDigits cs).1, (spanDigits cs).2)
    else none

/-- Optional JSON fraction part `.digits` (not consumed when absent or
malformed, in which case the leftover text makes the overall parse fail,
matching the Python error). -/
def lexFrac (s : Str) : Str × Str :=
  match s with
  | c :: cs =>
    if c = '.' then
      match spanDigits cs with
      | ([], _) => ([], s)
      | (ds, r) => (c :: ds, r)
    else ([], s)
  | [] => ([], [])

/-- Optional JSON exponent part `[eE][+-]?digits`. -/
def lexExp (s : Str) : Str × Str :=
  match s with
  | c :: cs =>
    if c = 'e' || c = 'E' then
      match cs with
      | d :: ds =>
        if d = '+' || d = '-' then
          match spanDigits ds with
          | ([], _) => ([], s)
          | (es, r) => (c :: d :: es, r)
        else
          match spanDigits cs with
          | ([], _) => ([], s)
          | (es, r) => (c :: es, r)
      | [] => ([], s)
    else ([], s)
  | [] => ([], [])

def lexNumAbs (s : Str) : Option (Str × Str) :=
  match lexInt s with
  | some (i, r1) =>
    match lexFrac r1 with
    | (f, r2) =>
      match lexExp r2 with
      | (e, r3) => some (i ++ f ++ e, r3)
  | none => none

def lexNumber (s : Str) : Option (Str × Str) :=
  match s with
  | c :: cs =>
    if c = '-' then
      match lexNumAbs cs with
      | some (l, r) => some (c :: l, r)
      | none => none
    else lexNumAbs s
  | [] => none

/-- Parsing jobs: a value, the members of an object after `{` (nonempty case),
or the elements of an array after `[` (nonempty case). -/
inductive PJob : Type where
  | val : PJob
  | objMembers : List (Str × JsonVal) → PJob
  | arrElems : List JsonVal → PJob

/-- Recursive-descent core of `json.loads`.  Fuel strictly decreases on every
recursive call; `2 * length + 2` always suffices (see `json_loads`). -/
def parseCore : Nat → PJob → Str → Option (JsonVal × Str)
  | 0, _, _ => none
  | n + 1, PJob.val, s0 =>
    match skipWs s0 with
    | [] => none
    | c :: cs =>
      if c = braceOpenChar then
        match skipWs cs with
        | d :: ds =>
          if d = braceCloseChar then some (JsonVal.obj [], ds)
          else parseCore n (PJob.objMembers []) (d :: ds)
        | [] => none
      else if c = '[' then
        match skipWs cs with
        | d :: ds =>
          if d = ']' then some (JsonVal.arr [], ds)
          else parseCore n (PJob.arrElems []) (d :: ds)
        | [] => none
      else if c = quoteChar then
        match parseStringBody cs with
        | some (s, r) => some (JsonVal.str s, r)
        | none => none
      else if c = 't' then
        match cs with
        | 'r' :: 'u' :: 'e' :: r => some (JsonVal.bool true, r)
        | _ => none
      else if c = 'f' then
        match cs with
        | 'a' :: 'l' :: 's' :: 'e' :: r => some (JsonVal.bool false, r)
        | _ => none
      else if c = 'n' then
        match cs with
        | 'u' :: 'l' :: 'l' :: r => some (JsonVal.null, r)
        | _ => none
      else if c = 'N' then
        match cs with
        | 'a' :: 'N' :: r => some (JsonVal.num ['N', 'a', 'N'], r)
        | _ => none
      else if c = 'I' then
        match cs with
        | 'n' :: 'f' :: 'i' :: 'n' :: 'i' :: 't' :: 'y' :: r =>
          some (JsonVal.num ['I', 'n', 'f', 'i', 'n', 'i', 't', 'y'], r)
        | _ => none
      else if c = '-' then
        match cs with
        | 'I' :: 'n' :: 'f' :: 'i' :: 'n' :: 'i' :: 't' :: 'y' :: r =>
          some (JsonVal.num ['-', 'I', 'n', 'f', 'i', 'n', 'i', 't', 'y'], r)
        | _ =>
          match lexNumber (c :: cs) with
          | some (l, r) => some (JsonVal.num l, r)
          | none => none
      else
        match lexNumber (c :: cs) with
        | some (l, r) => some (JsonVal.num l, r)
        | none => none
  | n + 1, PJob.objMembers acc, s0 =>
    match skipWs s0 with
    | c :: cs =>
      if c = quoteChar then
        match parseStringBody cs with
        | some (key, r1) =>
          match skipWs r1 with
          | d :: ds =>
            if d = ':' then
              match parseCore n PJob.val ds with
              | some (v, r3) =>
                match skipWs r3 with
                | e :: es =>
                  if e = ',' then parseCore n (PJob.objMembers (acc ++ [(key, v)])) es
                  else if e = braceCloseChar then some (JsonVal.obj (acc ++ [(key, v)]), es)
                  else none
                | [] => none
              | none => none
            else none
          | [] => none
        | none => none
      else none
    | [] => none
  | n + 1, PJob.arrElems acc, s0 =>
    match parseCore n PJob.val s0 with
    | some (v, r1) =>
      match skipWs r1 with
      | e :: es =>
        if e = ',' then parseCore n (PJob.arrElems (acc ++ [v])) es
        else if e = ']' then some (JsonVal.arr (acc ++ [v]), es)
        else none
      | [] => none
    | none => none

/-- Python `json.loads`: parse one JSON value and require only whitespace
after it. -/
def json_loads (s : Str) : Option JsonVal :=
  match parseCore (2 * s.length + 2) PJob.val s with
  | some (v, r) => if skipWs r = [] then some v else none
  | none => none

/-! ### JSON value access (Python dict semantics: later duplicate key wins) -/

def objLookupLast (kvs : List (Str × JsonVal)) (k : Str) : Option JsonVal :=
  kvs.foldl (fun acc kv => if kv.1 = k then some kv.2 else acc) none

def jGet (v : JsonVal) (k : Str) : Option JsonVal :=
  match v with
  | JsonVal.obj kvs => objLookupLast kvs k
  | _ => none

def strField (v : JsonVal) (k : Str) : Option Str :=
  match jGet v k with
  | some (JsonVal.str s) => some s
  | _ => none

/-! ### Structured-output extraction (src/app.py lines 137-165 and 359-386) -/

def ticks : Str := [tickChar, tickChar, tickChar]

def ticksJson : Str := [tickChar, tickChar, tickChar, 'j', 's', 'o', 'n']

/-- Markdown cleanup of the Suggestion Stage (app.py lines 138-142):
```python
if suggested_data.startswith('```json'):
    suggested_data = suggested_data.replace('```json', '').replace('```', '').strip()
elif suggested_data.startswith('```'):
    suggested_data = suggested_data.replace('```', '').strip()
``` -/
def cleanupSuggestion (s : Str) : Str :=
  if ticksJson.isPrefixOf s then pyStrip (replaceAll ticks [] (replaceAll ticksJson [] s))
  else if ticks.isPrefixOf s then pyStrip (replaceAll ticks [] s)
  else s

/-- Markdown cleanup of the Final Selection Stage (app.py lines 365-370):
```python
if selected_data.startswith("```json"):
    selected_data = selected_data.replace("```json", "").strip()
elif selected_data.startswith("```"):
    selected_data = selected_data.replace("```", "").strip()
if selected_data.endswith("```"):
    selected_data = selected_data[:-3].strip()
``` -/
def cleanupFinal1 (s : Str) : Str :=
  if ticksJson.isPrefixOf s then pyStrip (replaceAll ticksJson [] s)
  else if ticks.isPrefixOf s then pyStrip (replaceAll ticks [] s)
  else s

def cleanupFinal (s : Str) : Str :=
  if pyEndsWith ticks (cleanupFinal1 s) then
    pyStrip ((cleanupFinal1 s).take ((cleanupFinal1 s).length - 3))
  else cleanupFinal1 s

/-- `re.search(r'\x7b.*\x7d', s, re.DOTALL)` with a greedy `.*`: the match, when
one exists, runs from the first opening brace to the last closing brace at or
after it. -/
def braceSlice (s : Str) : Option Str :=
  match s.findIdx? (fun c => c = braceOpenChar) with
  | none => none
  | some i =>
    match s.reverse.findIdx? (fun c => c = braceCloseChar) with
    | none => none
    | some jr =>
      if i ≤ s.length - 1 - jr then some ((s.take (s.length - 1 - jr + 1)).drop i)
      else none

/-- The two parse attempts shared by both AI-backed extraction sites: parse the
whole (cleaned) text, else parse the outermost-brace substring. -/
def jsonExtractLadder (s : Str) : Option JsonVal :=
  match json_loads s with
  | some v => some v
  | none =>
    match braceSlice s with
    | some sub => json_loads sub
    | none => none

/-- Suggestion Stage extraction applied to the raw model output (which the
source first strips, line 134). `none` models the fall-through to the
fallback engine. -/
def extract_suggestion (raw : Str) : Option JsonVal :=
  jsonExtractLadder (cleanupSuggestion (pyStrip raw))

/-- The empty SelectionResult literal of app.py line 386. -/
def emptySelection : JsonVal :=
  JsonVal.obj [("food_selection".data, JsonVal.arr []), ("product_selection".data, JsonVal.arr [])]

/-- Final Selection Stage extraction applied to the raw model output (stripped
at line 361): the ladder result, or the empty SelectionResult when both parse
attempts fail. -/
def extract_final_sel (raw : Str) : JsonVal :=
  match jsonExtractLadder (cleanupFinal (pyStrip raw)) with
  | some v => v
  | none => emptySelection

/-! ### Fallback Suggestion Engine (app.py lines 172-228) -/

structure SuggestionSet where
  food_items : List Str
  products : List Str
deriving DecidableEq

/-- Event-type keyword buckets chosen by substring tests against the lowercase
query (app.py lines 183-196). -/
def keywordBuckets (ql : Str) : List Str × List Str :=
  if hasSubstr "birthday".data ql || hasSubstr "party".data ql then
    (["cake".data, "burger".data, "pizza".data, "brownie".data, "cupcake".data, "muffin".data],
     ["lights".data, "poppers".data, "curtain".data, "towels".data])
  else if hasSubstr "picnic".data ql || hasSubstr "outdoor".data ql then
    (["sandwich".data, "chips".data, "juice".data, "water".data, "snacks".data],
     ["towels".data, "wipes".data, "storage".data, "bag".data])
  else if hasSubstr "dinner".data ql || hasSubstr "meal".data ql then
    (["biryani".data, "curry".data, "naan".data, "rice".data, "dal".data],
     ["plates".data, "storage".data, "cleaner".data])
  else
    (["burger".data, "pizza".data, "coffee".data, "tea".data, "snacks".data],
     ["storage".data, "cleaner".data, "towels".data])

/-- For each keyword, the first two case-insensitive substring matches from the
catalog list, accumulated in keyword order (app.py lines 199-210; the
`if matches:` guard is a no-op since extending by an empty list changes
nothing). -/
def keywordMatches (keywords : List Str) (avail : List Str) : List Str :=
  keywords.foldl
    (fun acc kw => acc ++ ((avail.filter (fun item => hasSubstr (pyLower kw) (pyLower item))).take 2))
    []

/-- `list(dict.fromkeys(xs))`: de-duplicate keeping the first occurrence. -/
def dedupFirstAux (seen : List Str) : List Str → List Str
  | [] => []
  | x :: xs => if x ∈ seen then dedupFirstAux seen xs else x :: dedupFirstAux (x :: seen) xs

def dedupFirst (xs : List Str) : List Str := dedupFirstAux [] xs

/-- `create_fallback_suggestions` (app.py lines 172-228).  `random.sample` is
passed in as `sample`; its contract is stated where needed. -/
def create_fallback_suggestions (user_query : Str) (available_food_items available_products : List Str)
    (sample : List Str → Nat → List Str) : SuggestionSet :=
  let ql := pyLower user_query
  let bk := keywordBuckets ql
  let suggested_food0 := keywordMatches bk.1 available_food_items
  let suggested_products0 := keywordMatches bk.2 available_products
  let suggested_food1 :=
    if suggested_food0 = [] ∧ available_food_items ≠ [] then
      sample available_food_items (min 3 available_food_items.length)
    else suggested_food0
  let suggested_products1 :=
    if suggested_products0 = [] ∧ available_products ≠ [] then
      sample available_products (min 3 available_products.length)
    else suggested_products0
  { food_items := (dedupFirst suggested_food1).take 5,
    products := (dedupFirst suggested_products1).take 5 }

/-- The dict literal the fallback engine returns (lines 225-228), as JSON. -/
def suggestionJson (s : SuggestionSet) : JsonVal :=
  JsonVal.obj [("food_items".data, JsonVal.arr (s.food_items.map JsonVal.str)),
               ("products".data, JsonVal.arr (s.products.map JsonVal.str))]

/-- `get_suggested_items_and_products` (app.py lines 88-169).  The generative
backend call is `backend`: `Except.error` models the call raising (caught by
the `except` at line 167), `Except.ok raw` the returned completion text.
Extraction failure and backend failure both delegate to the fallback engine. -/
def get_suggested_items_and_products (user_query : Str)
    (available_food_items available_products : List Str)
    (sample : List Str → Nat → List Str) (backend : Except Str Str) : JsonVal :=
  match backend with
  | Except.error _ =>
    suggestionJson (create_fallback_suggestions user_query available_food_items available_products sample)
  | Except.ok raw =>
    match extract_suggestion raw with
    | some v => v
    | none =>
      suggestionJson (create_fallback_suggestions user_query available_food_items available_products sample)

/-! ### Final Selection Stage (app.py lines 277-386) -/

/-- `get_final_combined_selection`: the backend call at line 349 is not inside
any try/except, so a raising call propagates to the caller (`Except.error`);
on a returned completion the extraction ladder runs and failure yields the
empty SelectionResult (line 386). -/
def get_final_combined_selection (backend : Except Str Str) : Except Str JsonVal :=
  match backend with
  | Except.error e => Except.error e
  | Except.ok raw => Except.ok (extract_final_sel raw)

/-- item_name fields of the food_selection entries (present names only). -/
def foodNames (v : JsonVal) : List Str :=
  match jGet v "food_selection".data with
  | some (JsonVal.arr items) => items.filterMap (fun it => strField it "item_name".data)
  | _ => []

/-- product_name fields of the product_selection entries (present names only). -/
def productNames (v : JsonVal) : List Str :=
  match jGet v "product_selection".data with
  | some (JsonVal.arr items) => items.filterMap (fun it => strField it "product_name".data)
  | _ => []

/-! ### Refinement Loop and /chat/continue (app.py lines 432-492) -/

structure ChatTurn where
  role : Str
  content : Str
deriving DecidableEq

/-- The per-session state touched by `continue_chat` (the stored suggestion
lists and search-result snapshots are read-only there and omitted). -/
structure SessionCtx where
  chat_history : List ChatTurn
  final_selection : JsonVal

inductive ContinueOutcome : Type where
  | success : JsonVal → List ChatTurn → ContinueOutcome
  | failure : Str → Str → ContinueOutcome

/-- The refinement turn of `continue_chat` after the 400/404 guards: append
the user turn, call the backend inside `try`, parse the stripped completion
strictly with `json.loads` (no extraction ladder), and only on success replace
`final_selection` and append the assistant turn.  Any exception (backend or
parse) reaches the `except` at line 491, which returns the error payload;
the state mutations before the `try` (the appended user turn) remain. -/
def continue_chat_turn (ctx : SessionCtx) (followup_message : Str)
    (backend : Except Str Str) : SessionCtx × ContinueOutcome :=
  match backend with
  | Except.error e =>
    ({ ctx with chat_history := ctx.chat_history ++ [⟨"user".data, followup_message⟩] },
     ContinueOutcome.failure "Failed to process revision".data e)
  | Except.ok content =>
    match json_loads (pyStrip content) with
    | none =>
      ({ ctx with chat_history := ctx.chat_history ++ [⟨"user".data, followup_message⟩] },
       ContinueOutcome.failure "Failed to process revision".data "JSONDecodeError".data)
    | some revised_data =>
      ({ chat_history := ctx.chat_history ++ [⟨"user".data, followup_message⟩,
           ⟨"assistant".data, pyStrip content⟩],
         final_selection := revised_data },
       ContinueOutcome.success revised_data
         (ctx.chat_history ++ [⟨"user".data, followup_message⟩,
           ⟨"assistant".data, pyStrip content⟩]))

structure HttpResponse where
  status : Nat
  body : JsonVal

def sessionsLookup (sessions : List (Str × SessionCtx)) (sid : Str) : Option SessionCtx :=
  match sessions.find? (fun p => p.1 = sid) with
  | some p => some p.2
  | none => none

def sessionsUpdate (sessions : List (Str × SessionCtx)) (sid : Str) (ctx : SessionCtx) :
    List (Str × SessionCtx) :=
  sessions.map (fun p => if p.1 = sid then (sid, ctx) else p)

/-- Python truthiness of `data.get(...)` for a string field. -/
def truthyStr : Option Str → Bool
  | none => false
  | some s => !s.isEmpty

def historyJson (h : List ChatTurn) : JsonVal :=
  JsonVal.arr (h.map (fun t =>
    JsonVal.obj [("role".data, JsonVal.str t.role), ("content".data, JsonVal.str t.content)]))

/-- The full `/chat/continue` route (app.py lines 432-492): 400 on missing or
empty fields, 404 on unknown session, otherwise the refinement turn; both the
success payload and the error payload are returned by a bare `jsonify(...)`,
whose Flask status code is 200. -/
def continue_chat (sessions : List (Str × SessionCtx)) (session_id followup_message : Option Str)
    (backend : Except Str Str) : List (Str × SessionCtx) × HttpResponse :=
  if !truthyStr session_id || !truthyStr followup_message then
    (sessions, ⟨400, JsonVal.obj [("error".data, JsonVal.str "Session ID and message are required".data)]⟩)
  else
    let sid := session_id.getD []
    match sessionsLookup sessions sid with
    | none => (sessions, ⟨404, JsonVal.obj [("error".data, JsonVal.str "Invalid session ID".data)]⟩)
    | some ctx =>
      match continue_chat_turn ctx (followup_message.getD []) backend with
      | (ctx2, ContinueOutcome.success v h) =>
        (sessionsUpdate sessions sid ctx2,
         ⟨200, JsonVal.obj [("revised_selection".data, v), ("chat_history".data, historyJson h)]⟩)
      | (ctx2, ContinueOutcome.failure e d) =>
        (sessionsUpdate sessions sid ctx2,
         ⟨200, JsonVal.obj [("error".data, JsonVal.str e), ("details".data, JsonVal.str d)]⟩)

/-- Whether a JSON object body has a given top-level key. -/
def hasKey (v : JsonVal) (k : Str) : Bool :=
  match jGet v k with
  | some _ => true
  | none => false

/-! ### /cart/add-all (app.py lines 495-531) -/

/-- The value found under "quantity" in a submitted line item:
absent, a JSON integer, a string, or anything else (null, list, object, ...).
`int(...)` fails on the last kind and on non-numeric strings. -/
inductive QVal : Type where
  | missing : QVal
  | intVal : Int → QVal
  | strVal : Str → QVal
  | other : QVal
deriving DecidableEq

def digitsToNat (ds : Str) : Nat := ds.foldl (fun a c => a * 10 + (c.toNat - 48)) 0

/-- Python `int(s)` on a string: optional surrounding whitespace, optional
sign, one or more digits (digit-group underscores are not modelled; no input
here uses them). -/
def pyIntOfStr (s : Str) : Option Int :=
  let t := pyStrip s
  match t with
  | c :: cs =>
    if c = '-' then
      if cs ≠ [] ∧ cs.all isDigitChar then some (-(digitsToNat cs : Int)) else none
    else if c = '+' then
      if cs ≠ [] ∧ cs.all isDigitChar then some ((digitsToNat cs : Int)) else none
    else if t.all isDigitChar then some ((digitsToNat t : Int))
    else none
  | [] => none

/-- `int(item.get("quantity", 1))`: the default 1 when the key is absent,
conversion of ints and numeric strings, failure (a raised `ValueError` or
`TypeError`) otherwise. -/
def pyInt : QVal → Option Int
  | QVal.missing => some 1
  | QVal.intVal n => some n
  | QVal.strVal s => pyIntOfStr s
  | QVal.other => none

/-- A submitted food line item as read by the route via `item.get(...)`
(string-valued fields modelled as optional strings). -/
structure CartItem where
  restaurant_id : Option Str
  item_id : Option Str
  quantity : QVal
  producturl : Option Str
  image_url : Option Str
deriving DecidableEq

structure CartPayload where
  user_id : Str
  restaurant_id : Option Str
  item_id : Option Str
  quantity : Int
  producturl : Option Str
deriving DecidableEq

/-- Python `a or b` on optional strings (None and the empty string are falsy). -/
def pyOrStr : Option Str → Option Str → Option Str
  | some s, y => if s = [] then y else some s
  | none, y => y

/-- The hardcoded user id of app.py line 501 (the request-body `user_id` read
is commented out at line 500). -/
def DEFAULT_USER_ID : Str := "5d320bcc-5ccd-4510-aace-695a3d864c18".data

def mkPayload (user_id : Str) (item : CartItem) (q : Int) : CartPayload :=
  { user_id := user_id,
    restaurant_id := item.restaurant_id,
    item_id := item.item_id,
    quantity := q,
    producturl := pyOrStr item.producturl item.image_url }

/-- Outcome of one `requests.post(f"SERVER_URL/cart/add", json=payload)`:
HTTP 200, a non-200 status with a response text, or a raised exception. -/
inductive PostOutcome : Type where
  | ok : PostOutcome
  | httpError : Str → PostOutcome
  | exception : Str → PostOutcome
deriving DecidableEq

/-- The per-item loop of lines 509-525.  `int(...)` at line 514 runs outside
the `try`, so its exception aborts the whole request (`Except.error`); the
`try` around the POST alone turns per-item POST failures into `failed`
entries. -/
def processCart (post : CartPayload → PostOutcome) (user_id : Str) :
    List CartItem → Except Str (List CartPayload × List (CartItem × Str))
  | [] => Except.ok ([], [])
  | item :: rest =>
    match pyInt item.quantity with
    | none => Except.error "int() raised on quantity".data
    | some q =>
      let payload := mkPayload user_id item q
      match processCart post user_id rest with
      | Except.error e => Except.error e
      | Except.ok (adds, fails) =>
        match post payload with
        | PostOutcome.ok => Except.ok (payload :: adds, fails)
        | PostOutcome.httpError text => Except.ok (adds, (item, text) :: fails)
        | PostOutcome.exception m => Except.ok (adds, (item, m) :: fails)

/-- The request body of `/cart/add-all`: the `user_id` field may be supplied
by the client but the handler never reads it (line 500 is commented out). -/
structure CartRequest where
  food_selection : Option (List CartItem)
  user_id : Option Str
deriving DecidableEq

inductive CartHttpResult : Type where
  | badRequest : Str → CartHttpResult
  | completed : List CartPayload → List (CartItem × Str) → CartHttpResult
  | serverError : Str → CartHttpResult
deriving DecidableEq

/-- `add_items_to_cart` (app.py lines 495-531): 400 when `food_selection` is
missing or empty (the `or not user_id` clause can never fire with the
hardcoded id), an unhandled exception (HTTP 500) when some `int(...)` raises,
otherwise `{status: "completed", added, failed}`. -/
def add_items_to_cart (req : CartRequest) (post : CartPayload → PostOutcome) : CartHttpResult :=
  match req.food_selection with
  | none => CartHttpResult.badRequest "Missing food_selection or user_id".data
  | some items =>
    if items = [] then CartHttpResult.badRequest "Missing food_selection or user_id".data
    else
      match processCart post DEFAULT_USER_ID items with
      | Except.error e => CartHttpResult.serverError e
      | Except.ok (adds, fails) => CartHttpResult.completed adds fails

/-- Closed form of the `added` array when every quantity converts. -/
def addedOf (post : CartPayload → PostOutcome) (items : List CartItem) : List CartPayload :=
  items.filterMap (fun item =>
    match pyInt item.quantity with
    | some q =>
      match post (mkPayload DEFAULT_USER_ID item q) with
      | PostOutcome.ok => some (mkPayload DEFAULT_USER_ID item q)
      | _ => none
    | none => none)

/-- Closed form of the `failed` array when every quantity converts. -/
def failedOf (post : CartPayload → PostOutcome) (items : List CartItem) : List (CartItem × Str) :=
  items.filterMap (fun item =>
    match pyInt item.quantity with
    | some q =>
      match post (mkPayload DEFAULT_USER_ID item q) with
      | PostOutcome.ok => none
      | PostOutcome.httpError text => some (item, text)
      | PostOutcome.exception m => some (item, m)
    | none => none)

/-! ### Search Aggregator, food side (app.py lines 231-257) -/

/-- A `food.menu_items` row (the columns the query and claims touch; `review`
is nullable). -/
structure FoodRow where
  name : Str
  review : Option ℚ
  restaurant_id : Str
  item_id : Str
deriving DecidableEq

def rowRank (r : FoodRow) : WithBot ℚ :=
  match r.review with
  | none => ⊥
  | some q => (q : WithBot ℚ)

/-- `ORDER BY review DESC NULLS LAST`: a row sorts before another when its
rank (NULL = bottom) is at least the other's. -/
def foodDescOrder (a b : FoodRow) : Prop := rowRank b ≤ rowRank a

instance : DecidableRel foodDescOrder :=
  fun a b => inferInstanceAs (Decidable (rowRank b ≤ rowRank a))

instance : IsTotal FoodRow foodDescOrder :=
  ⟨fun a b => Or.symm (le_total (rowRank a) (rowRank b))⟩

instance : IsTrans FoodRow foodDescOrder :=
  ⟨fun _ _ _ h1 h2 => le_trans h2 h1⟩

/-- The per-name query
`SELECT * FROM food.menu_items WHERE LOWER(name) = LOWER(%s)
 ORDER BY review DESC NULLS LAST LIMIT 3`
modelled relationally over the table contents. -/
def sql_food_lookup (table : List FoodRow) (item : Str) : List FoodRow :=
  ((table.filter (fun r => pyLower r.name = pyLower item)).insertionSort foodDescOrder).take 3

/-- `fetch_food_search_results` (app.py lines 231-257): `conn = none` models
a failed connection (every name maps to `[]`, line 237; the `except` branch
at lines 250-253 produces the same shape). -/
def fetch_food_search_results (conn : Option (List FoodRow)) (item_list : List Str) :
    List (Str × List FoodRow) :=
  match conn with
  | none => item_list.map (fun item => (item, []))
  | some table => item_list.map (fun item => (item, sql_food_lookup table item))

/-! ### Inputs used by witnesses and counterexamples -/

/-- A deterministic sampler satisfying the `random.sample` contract, used to
instantiate witnesses. -/
def takeSampler (l : List Str) (k : Nat) : List Str := l.take k

/-- The `random.sample` contract used by the fallback-engine proofs: elements
come from the population, and a sample of a positive size from a nonempty
population is nonempty. -/
def sampleOK (sample : List Str → Nat → List Str) : Prop :=
  ∀ l k, (∀ x ∈ sample l k, x ∈ l) ∧ (l ≠ [] → 1 ≤ k → sample l k ≠ [])

/-- "```json\n" + t + "\n```". -/
def wrapJson (t : Str) : Str := ticksJson ++ '\n' :: (t ++ '\n' :: ticks)

/-- "```\n" + t + "\n```". -/
def wrapPlain (t : Str) : Str := ticks ++ '\n' :: (t ++ '\n' :: ticks)

/-- restaurant_id fields of the food_selection entries (present ids only). -/
def foodRestaurantIds (v : JsonVal) : List Str :=
  match jGet v "food_selection".data with
  | some (JsonVal.arr items) => items.filterMap (fun it => strField it "restaurant_id".data)
  | _ => []

def statusIsCompleted : CartHttpResult → Bool
  | CartHttpResult.completed _ _ => true
  | _ => false

/-- A JSON text whose "a" string holds a fenced-code marker. -/
def exT0 : Str := "\x7b\"a\": \"".data ++ ticks ++ "\"\x7d".data

/-- A fence-free JSON text. -/
def exT1 : Str := "\x7b\"food_items\": [\"Cake\"], \"products\": []\x7d".data

/-- A backend completion whose food_selection repeats one item_name under two
restaurant_ids. -/
def exRawDup : Str :=
  "\x7b\"food_selection\": [\x7b\"item_name\": \"Pizza\", \"restaurant_id\": \"r1\"\x7d, \x7b\"item_name\": \"Pizza\", \"restaurant_id\": \"r2\"\x7d], \"product_selection\": []\x7d".data

/-- A backend completion that parses to the empty selection shape. -/
def exRawOk : Str := "\x7b\"food_selection\": [], \"product_selection\": []\x7d".data

def exOkItem : CartItem :=
  ⟨some "r1".data, some "i1".data, QVal.strVal "2".data, none, some "img1".data⟩

/-- Quantity "abc": `int("abc")` raises. -/
def exBadItem : CartItem :=
  ⟨some "r2".data, some "i2".data, QVal.strVal "abc".data, none, none⟩

/-- An item missing its item_id. -/
def exNoIdItem : CartItem := ⟨some "r3".data, none, QVal.missing, none, none⟩

def exPostOk : CartPayload → PostOutcome := fun _ => PostOutcome.ok

/-- A commerce backend that rejects payloads without an item_id. -/
def exPostReject : CartPayload → PostOutcome := fun p =>
  match p.item_id with
  | none => PostOutcome.httpError "item_id required".data
  | some _ => PostOutcome.ok

def exTable : List FoodRow :=
  [⟨"Pizza".data, some 3, "r1".data, "i1".data⟩,
   ⟨"pizza".data, none, "r2".data, "i2".data⟩,
   ⟨"PIZZA".data, some 5, "r3".data, "i3".data⟩,
   ⟨"Burger".data, some 4, "r4".data, "i4".data⟩,
   ⟨"pizza".data, some 1, "r5".data, "i5".data⟩]

def exPizzaRows : List FoodRow :=
  [⟨"PIZZA".data, some 5, "r3".data, "i3".data⟩,
   ⟨"Pizza".data, some 3, "r1".data, "i1".data⟩,
   ⟨"pizza".data, some 1, "r5".data, "i5".data⟩]

def exCtx : SessionCtx := ⟨[⟨"user".data, "plan a party".data⟩], emptySelection⟩

def exSessions : List (Str × SessionCtx) := [("sid1".data, exCtx)]

def isFailureOutcome : ContinueOutcome → Bool
  | ContinueOutcome.failure _ _ => true
  | _ => false

/-! ## Claims -/

/-- C1 counterexample: when the generative-backend call of the Final Selection
Stage fails, `get_final_combined_selection` does not return the empty
SelectionResult — the exception propagates to its caller, because the
`client.chat.completions.create` call at line 349 is outside any try/except. -/
theorem c1_counterexample :
    get_final_combined_selection (Except.error "backend unreachable".data)
      = Except.error "backend unreachable".data ∧
    (Except.error "backend unreachable".data : Except Str JsonVal) ≠ Except.ok emptySelection :=
  ⟨rfl, fun h => Except.noConfusion h⟩

/-- C1 (amended): when the backend call returns but its raw output fails both
extraction attempts, `get_final_combined_selection` returns the empty
SelectionResult; a failing backend call instead propagates. -/
theorem c1_extraction_failure_yields_empty (raw : Str)
    (h : jsonExtractLadder (cleanupFinal (pyStrip raw)) = none) :
    get_final_combined_selection (Except.ok raw) = Except.ok emptySelection := by
  simp only [get_final_combined_selection, extract_final_sel, h]

theorem c1_witness :
    jsonExtractLadder (cleanupFinal (pyStrip "model produced no usable output".data)) = none ∧
    get_final_combined_selection (Except.ok "model produced no usable output".data)
      = Except.ok emptySelection :=
  ⟨rfl, c1_extraction_failure_yields_empty "model produced no usable output".data rfl⟩

/-- C2: the refinement turn appends the user turn first; on backend failure or
strict-parse failure it reports an error outcome and leaves `final_selection`
and the rest of `chat_history` untouched (no assistant turn); on success it
appends the assistant turn and replaces `final_selection` with the parsed
revision. -/
theorem c2_refinement_state_discipline (ctx : SessionCtx) (msg : Str) (backend : Except Str Str) :
    (∀ e, backend = Except.error e →
      (continue_chat_turn ctx msg backend).1.final_selection = ctx.final_selection ∧
      (continue_chat_turn ctx msg backend).1.chat_history
        = ctx.chat_history ++ [⟨"user".data, msg⟩] ∧
      isFailureOutcome (continue_chat_turn ctx msg backend).2 = true) ∧
    (∀ raw, backend = Except.ok raw → json_loads (pyStrip raw) = none →
      (continue_chat_turn ctx msg backend).1.final_selection = ctx.final_selection ∧
      (continue_chat_turn ctx msg backend).1.chat_history
        = ctx.chat_history ++ [⟨"user".data, msg⟩] ∧
      isFailureOutcome (continue_chat_turn ctx msg backend).2 = true) ∧
    (∀ raw v, backend = Except.ok raw → json_loads (pyStrip raw) = some v →
      (continue_chat_turn ctx msg backend).1.final_selection = v ∧
      (continue_chat_turn ctx msg backend).1.chat_history
        = ctx.chat_history ++ [⟨"user".data, msg⟩, ⟨"assistant".data, pyStrip raw⟩] ∧
      (continue_chat_turn ctx msg backend).2 = ContinueOutcome.success v
        (ctx.chat_history ++ [⟨"user".data, msg⟩, ⟨"assistant".data, pyStrip raw⟩])) := by
  refine ⟨?_, ?_, ?_⟩
  · intro e he
    subst he
    simp [continue_chat_turn, isFailureOutcome]
  · intro raw he hp
    subst he
    simp [continue_chat_turn, hp, isFailureOutcome]
  · intro raw v he hp
    subst he
    simp [continue_chat_turn, hp]

theorem c2_witness :
    (continue_chat_turn exCtx "keep everything".data (Except.ok " [] ".data)).1.final_selection
        = JsonVal.arr [] ∧
    (continue_chat_turn exCtx "keep everything".data (Except.error "boom".data)).1.final_selection
        = exCtx.final_selection ∧
    (continue_chat_turn exCtx "keep everything".data (Except.error "boom".data)).1.chat_history
        = exCtx.chat_history ++ [⟨"user".data, "keep everything".data⟩] :=
  ⟨((c2_refinement_state_discipline exCtx "keep everything".data
      (Except.ok " [] ".data)).2.2 " [] ".data (JsonVal.arr []) rfl rfl).1,
   ((c2_refinement_state_discipline exCtx "keep everything".data
      (Except.error "boom".data)).1 "boom".data rfl).1,
   ((c2_refinement_state_discipline exCtx "keep everything".data
      (Except.error "boom".data)).1 "boom".data rfl).2.1⟩

/-- C9: for a /chat/continue request with a truthy session_id that is a known
session and a truthy message, an internal failure (backend raising, or the
revision not parsing as JSON) yields an HTTP 200 response whose body carries
both an error key and a details key. -/
theorem c9_continue_error_http_200 (sessions : List (Str × SessionCtx)) (sid msg : Str)
    (ctx : SessionCtx) (backend : Except Str Str)
    (hsid : sid ≠ []) (hmsg : msg ≠ [])
    (hlook : sessionsLookup sessions sid = some ctx)
    (hfail : (∃ e, backend = Except.error e) ∨
             (∃ raw, backend = Except.ok raw ∧ json_loads (pyStrip raw) = none)) :
    (continue_chat sessions (some sid) (some msg) backend).2.status = 200 ∧
    hasKey (continue_chat sessions (some sid) (some msg) backend).2.body "error".data = true ∧
    hasKey (continue_chat sessions (some sid) (some msg) backend).2.body "details".data = true := by
  have hts : truthyStr (some sid) = true := by
    simp [truthyStr, List.isEmpty_iff, hsid]
  have htm : truthyStr (some msg) = true := by
    simp [truthyStr, List.isEmpty_iff, hmsg]
  rcases hfail with ⟨e, he⟩ | ⟨raw, he, hp⟩
  · subst he
    simp [continue_chat, hts, htm, hlook, continue_chat_turn, hasKey, jGet, objLookupLast]
  · subst he
    simp [continue_chat, hts, htm, hlook, continue_chat_turn, hp, hasKey, jGet, objLookupLast]

theorem c9_witness :
    sessionsLookup exSessions "sid1".data = some exCtx ∧
    (continue_chat exSessions (some "sid1".data) (some "remove the cake".data)
        (Except.error "connection reset".data)).2.status = 200 ∧
    hasKey (continue_chat exSessions (some "sid1".data) (some "remove the cake".data)
        (Except.error "connection reset".data)).2.body "error".data = true ∧
    hasKey (continue_chat exSessions (some "sid1".data) (some "remove the cake".data)
        (Except.error "connection reset".data)).2.body "details".data = true :=
  ⟨rfl,
   c9_continue_error_http_200 exSessions "sid1".data "remove the cake".data exCtx
     (Except.error "connection reset".data) (by decide) (by decide) rfl
     (Or.inl ⟨"connection reset".data, rfl⟩)⟩

/-- C10: /cart/add-all ignores any client-supplied user_id — two request
bodies differing only in that field are handled identically — every payload
is built with the hardcoded constant id, and in particular every payload in
the added array carries it. -/
theorem c10_user_id_constant (fs : Option (List CartItem)) (u1 u2 : Option Str)
    (post : CartPayload → PostOutcome) :
    add_items_to_cart ⟨fs, u1⟩ post = add_items_to_cart ⟨fs, u2⟩ post ∧
    (∀ item q, (mkPayload DEFAULT_USER_ID item q).user_id = DEFAULT_USER_ID) ∧
    (∀ items adds fails, processCart post DEFAULT_USER_ID items = Except.ok (adds, fails) →
      ∀ p ∈ adds, p.user_id = DEFAULT_USER_ID) := by
  refine ⟨rfl, fun _ _ => rfl, ?_⟩
  intro items
  induction items with
  | nil =>
    intro adds fails h p hp
    simp only [processCart] at h
    cases h
    cases hp
  | cons item rest ih =>
    intro adds fails h p hp
    simp only [processCart] at h
    cases hq : pyInt item.quantity with
    | none => simp only [hq] at h; exact Except.noConfusion h
    | some q =>
      simp only [hq] at h
      cases hrest : processCart post DEFAULT_USER_ID rest with
      | error e => simp only [hrest] at h; exact Except.noConfusion h
      | ok pr =>
        simp only [hrest] at h
        cases hpost : post (mkPayload DEFAULT_USER_ID item q) with
        | ok =>
          simp only [hpost] at h
          cases h
          rcases List.mem_cons.mp hp with hp | hp
          · rw [hp]; rfl
          · exact ih pr.1 pr.2 (by rw [hrest]) p hp
        | httpError text =>
          simp only [hpost] at h
          cases h
          exact ih pr.1 pr.2 (by rw [hrest]) p hp
        | exception m =>
          simp only [hpost] at h
          cases h
          exact ih pr.1 pr.2 (by rw [hrest]) p hp

theorem c10_witness :
    add_items_to_cart ⟨some [exOkItem], some "alice".data⟩ exPostOk
      = add_items_to_cart ⟨some [exOkItem], some "bob".data⟩ exPostOk ∧
    (mkPayload DEFAULT_USER_ID exOkItem 2).user_id = DEFAULT_USER_ID ∧
    ∀ p ∈ [mkPayload DEFAULT_USER_ID exOkItem 2], p.user_id = DEFAULT_USER_ID :=
  ⟨(c10_user_id_constant (some [exOkItem]) (some "alice".data) (some "bob".data) exPostOk).1,
   (c10_user_id_constant (some [exOkItem]) (some "alice".data) (some "bob".data) exPostOk).2.1
     exOkItem 2,
   (c10_user_id_constant (some [exOkItem]) (some "alice".data) (some "bob".data) exPostOk).2.2
     [exOkItem] [mkPayload DEFAULT_USER_ID exOkItem 2] [] rfl⟩

/-- Helper for C5: when every quantity converts, `processCart` succeeds with
the filterMap closed forms. -/
theorem processCart_closed_form (post : CartPayload → PostOutcome) (items : List CartItem)
    (hq : ∀ item ∈ items, pyInt item.quantity ≠ none) :
    processCart post DEFAULT_USER_ID items = Except.ok (addedOf post items, failedOf post items) := by
  induction items with
  | nil => rfl
  | cons item rest ih =>
    have hqi : pyInt item.quantity ≠ none := hq item (List.mem_cons_self item rest)
    obtain ⟨q, hqv⟩ := Option.ne_none_iff_exists'.mp hqi
    have ihr := ih (fun it hit => hq it (List.mem_cons_of_mem item hit))
    simp only [processCart, hqv, ihr, addedOf, failedOf, List.filterMap_cons]
    cases post (mkPayload DEFAULT_USER_ID item q) <;> simp

/-- Helper for C5: the added and failed arrays partition the batch. -/
theorem addedOf_failedOf_length (post : CartPayload → PostOutcome) (items : List CartItem)
    (hq : ∀ item ∈ items, pyInt item.quantity ≠ none) :
    (addedOf post items).length + (failedOf post items).length = items.length := by
  induction items with
  | nil => rfl
  | cons item rest ih =>
    have hqi : pyInt item.quantity ≠ none := hq item (List.mem_cons_self item rest)
    obtain ⟨q, hqv⟩ := Option.ne_none_iff_exists'.mp hqi
    have ihr := ih (fun it hit => hq it (List.mem_cons_of_mem item hit))
    simp only [addedOf, failedOf, List.filterMap_cons, hqv] at ihr ⊢
    cases post (mkPayload DEFAULT_USER_ID item q) <;> simp <;> omega

/-- C5 counterexample: a request whose second item has quantity "abc" makes
`int(...)` raise outside the try, aborting the whole batch (HTTP 500): the
first and third items are not reported, and the response does not have status
"completed". -/
theorem c5_counterexample :
    add_items_to_cart ⟨some [exOkItem, exBadItem, exNoIdItem], none⟩ exPostOk
      = CartHttpResult.serverError "int() raised on quantity".data ∧
    statusIsCompleted (add_items_to_cart ⟨some [exOkItem, exBadItem, exNoIdItem], none⟩ exPostOk)
      = false :=
  ⟨rfl, rfl⟩

/-- C5 (amended): for a non-empty food_selection all of whose items carry a
convertible quantity (absent, integer, or numeric string), each item lands in
exactly one of added/failed, a commerce-API failure on one item never
prevents the rest from being processed (the outcome for each item is a
function of its own POST alone), and the response has status "completed";
an item whose quantity fails `int(...)` instead aborts the whole batch. -/
theorem c5_batch_isolation (items : List CartItem) (u : Option Str)
    (post : CartPayload → PostOutcome) (hne : items ≠ [])
    (hq : ∀ item ∈ items, pyInt item.quantity ≠ none) :
    add_items_to_cart ⟨some items, u⟩ post
      = CartHttpResult.completed (addedOf post items) (failedOf post items) ∧
    (addedOf post items).length + (failedOf post items).length = items.length := by
  constructor
  · simp only [add_items_to_cart, if_neg hne, processCart_closed_form post items hq]
  · exact addedOf_failedOf_length post items hq

theorem c5_witness :
    add_items_to_cart ⟨some [exOkItem, exNoIdItem], none⟩ exPostReject
      = CartHttpResult.completed (addedOf exPostReject [exOkItem, exNoIdItem])
          (failedOf exPostReject [exOkItem, exNoIdItem]) ∧
    (addedOf exPostReject [exOkItem, exNoIdItem]).length
      + (failedOf exPostReject [exOkItem, exNoIdItem]).length = 2 :=
  c5_batch_isolation [exOkItem, exNoIdItem] none exPostReject
    (by decide) (by decide)

/-- C7: when the cleaned text fails the direct parse and the outermost-brace
substring (when one exists) also fails to parse, the extraction logic signals
failure: the Suggestion Stage delegates to the fallback engine and the Final
Selection Stage returns the empty SelectionResult (both functions are total,
so no parse error can propagate). -/
theorem c7_extraction_failure_signals (user_query : Str) (foods prods : List Str)
    (sample : List Str → Nat → List Str) (raw : Str)
    (hs1 : json_loads (cleanupSuggestion (pyStrip raw)) = none)
    (hs2 : ∀ sub, braceSlice (cleanupSuggestion (pyStrip raw)) = some sub → json_loads sub = none)
    (hf1 : json_loads (cleanupFinal (pyStrip raw)) = none)
    (hf2 : ∀ sub, braceSlice (cleanupFinal (pyStrip raw)) = some sub → json_loads sub = none) :
    get_suggested_items_and_products user_query foods prods sample (Except.ok raw)
      = suggestionJson (create_fallback_suggestions user_query foods prods sample) ∧
    get_final_combined_selection (Except.ok raw) = Except.ok emptySelection := by
  have hs : jsonExtractLadder (cleanupSuggestion (pyStrip raw)) = none := by
    unfold jsonExtractLadder
    rw [hs1]
    cases hb : braceSlice (cleanupSuggestion (pyStrip raw)) with
    | none => rfl
    | some sub => simp only [hs2 sub hb]
  have hf : jsonExtractLadder (cleanupFinal (pyStrip raw)) = none := by
    unfold jsonExtractLadder
    rw [hf1]
    cases hb : braceSlice (cleanupFinal (pyStrip raw)) with
    | none => rfl
    | some sub => simp only [hf2 sub hb]
  constructor
  · simp only [get_suggested_items_and_products, extract_suggestion, hs]
  · simp only [get_final_combined_selection, extract_final_sel, hf]

theorem c7_witness :
    get_suggested_items_and_products "plan a picnic".data
        ["Club Sandwich".data] ["Paper Towels".data] takeSampler
        (Except.ok "Sorry, I cannot help with that.".data)
      = suggestionJson (create_fallback_suggestions "plan a picnic".data
          ["Club Sandwich".data] ["Paper Towels".data] takeSampler) ∧
    get_final_combined_selection (Except.ok "Sorry, I cannot help with that.".data)
      = Except.ok emptySelection :=
  c7_extraction_failure_signals "plan a picnic".data
    ["Club Sandwich".data] ["Paper Towels".data] takeSampler
    "Sorry, I cannot help with that.".data
    rfl
    (fun sub h => by
      rw [show braceSlice (cleanupSuggestion (pyStrip "Sorry, I cannot help with that.".data))
            = none from rfl] at h
      exact Option.noConfusion h)
    rfl
    (fun sub h => by
      rw [show braceSlice (cleanupFinal (pyStrip "Sorry, I cannot help with that.".data))
            = none from rfl] at h
      exact Option.noConfusion h)

/-- C4 counterexample: a backend completion repeating the same item_name under
two different restaurant_ids parses and is returned verbatim by the Final
Selection Stage, so its food_selection carries duplicate names — the stage
never enforces the no-duplicates instruction. -/
theorem c4_counterexample :
    foodNames (extract_final_sel exRawDup) = ["Pizza".data, "Pizza".data] ∧
    foodRestaurantIds (extract_final_sel exRawDup) = ["r1".data, "r2".data] ∧
    ¬ (foodNames (extract_final_sel exRawDup)).Nodup :=
  ⟨rfl, rfl, by decide⟩

/-- C4 (amended): the Final Selection Stage returns the parsed backend JSON
verbatim (or the empty SelectionResult), so its output has duplicate-free
food and product names exactly when the parsed backend output does; the
empty fallback always does. -/
theorem c4_no_duplicates_iff_backend (raw : Str)
    (h : ∀ v, jsonExtractLadder (cleanupFinal (pyStrip raw)) = some v →
      (foodNames v).Nodup ∧ (productNames v).Nodup) :
    (foodNames (extract_final_sel raw)).Nodup ∧ (productNames (extract_final_sel raw)).Nodup := by
  unfold extract_final_sel
  cases hl : jsonExtractLadder (cleanupFinal (pyStrip raw)) with
  | some v => exact h v hl
  | none => exact ⟨by decide, by decide⟩

theorem c4_witness :
    (foodNames (extract_final_sel exRawOk)).Nodup ∧
    (productNames (extract_final_sel exRawOk)).Nodup :=
  c4_no_duplicates_iff_backend exRawOk (by
    intro v hv
    rw [show jsonExtractLadder (cleanupFinal (pyStrip exRawOk)) = some emptySelection
          from rfl] at hv
    cases hv
    exact ⟨by decide, by decide⟩)

/-! ### Helper lemmas for the fallback engine (C3) -/

theorem mem_dedupFirstAux (seen xs : List Str) (x : Str) :
    x ∈ dedupFirstAux seen xs → x ∈ xs := by
  induction xs generalizing seen with
  | nil => intro h; simp [dedupFirstAux] at h
  | cons y ys ih =>
    intro h
    simp only [dedupFirstAux] at h
    by_cases hy : y ∈ seen
    · rw [if_pos hy] at h
      exact List.mem_cons_of_mem y (ih seen h)
    · rw [if_neg hy] at h
      rcases List.mem_cons.mp h with h | h
      · rw [h]; exact List.mem_cons_self y ys
      · exact List.mem_cons_of_mem y (ih (y :: seen) h)

theorem dedupFirstAux_not_mem_seen (seen xs : List Str) (x : Str) :
    x ∈ dedupFirstAux seen xs → x ∉ seen := by
  induction xs generalizing seen with
  | nil => intro h; simp [dedupFirstAux] at h
  | cons y ys ih =>
    intro h
    simp only [dedupFirstAux] at h
    by_cases hy : y ∈ seen
    · rw [if_pos hy] at h
      exact ih seen h
    · rw [if_neg hy] at h
      rcases List.mem_cons.mp h with h | h
      · rw [h]; exact hy
      · intro hseen
        exact ih (y :: seen) h (List.mem_cons_of_mem y hseen)

theorem dedupFirstAux_nodup (seen xs : List Str) : (dedupFirstAux seen xs).Nodup := by
  induction xs generalizing seen with
  | nil => simp [dedupFirstAux]
  | cons y ys ih =>
    simp only [dedupFirstAux]
    by_cases hy : y ∈ seen
    · rw [if_pos hy]; exact ih seen
    · rw [if_neg hy]
      refine List.nodup_cons.mpr ⟨?_, ih (y :: seen)⟩
      intro hmem
      exact dedupFirstAux_not_mem_seen (y :: seen) ys y hmem (List.mem_cons_self y seen)

theorem keywordMatches_mem_aux (avail kws acc : List Str) (x : Str) :
    x ∈ kws.foldl
      (fun acc kw => acc ++ ((avail.filter (fun item => hasSubstr (pyLower kw) (pyLower item))).take 2))
      acc → x ∈ acc ∨ x ∈ avail := by
  induction kws generalizing acc with
  | nil => intro h; exact Or.inl h
  | cons kw kws ih =>
    intro h
    rcases ih _ h with h | h
    · rcases List.mem_append.mp h with h | h
      · exact Or.inl h
      · exact Or.inr (List.mem_of_mem_filter (List.take_subset 2 _ h))
    · exact Or.inr h

theorem mem_keywordMatches (kws avail : List Str) (x : Str) :
    x ∈ keywordMatches kws avail → x ∈ avail := by
  intro h
  rcases keywordMatches_mem_aux avail kws [] x h with h | h
  · simp at h
  · exact h

/-- The list fed to dedup: keyword matches, or a random sample when there are
none: always a nonempty sublist-of-catalog list under the stated contract. -/
theorem chosen_base_ok (kws avail : List Str) (sample : List Str → Nat → List Str)
    (hav : avail ≠ []) (hs : sampleOK sample) :
    (if keywordMatches kws avail = [] ∧ avail ≠ [] then sample avail (min 3 avail.length)
     else keywordMatches kws avail) ≠ [] ∧
    (∀ x ∈ (if keywordMatches kws avail = [] ∧ avail ≠ [] then sample avail (min 3 avail.length)
     else keywordMatches kws avail), x ∈ avail) := by
  by_cases hc : keywordMatches kws avail = [] ∧ avail ≠ []
  · rw [if_pos hc]
    have hlen : 1 ≤ avail.length := List.length_pos.mpr hav
    refine ⟨(hs avail (min 3 avail.length)).2 hav (by omega), fun x hx => (hs avail _).1 x hx⟩
  · rw [if_neg hc]
    have hkm : keywordMatches kws avail ≠ [] := fun hz => hc ⟨hz, hav⟩
    exact ⟨hkm, fun x hx => mem_keywordMatches kws avail x hx⟩

theorem dedup_take_core (base avail : List Str) (hne : base ≠ [])
    (hmem : ∀ x ∈ base, x ∈ avail) :
    (dedupFirst base).take 5 ≠ [] ∧ (∀ x ∈ (dedupFirst base).take 5, x ∈ avail) ∧
    ((dedupFirst base).take 5).Nodup ∧ ((dedupFirst base).take 5).length ≤ 5 := by
  refine ⟨?_, ?_, ?_, ?_⟩
  · cases base with
    | nil => exact absurd rfl hne
    | cons y ys => simp [dedupFirst, dedupFirstAux]
  · intro x hx
    exact hmem x (mem_dedupFirstAux [] base x (List.take_subset 5 _ hx))
  · exact List.Nodup.sublist (List.take_sublist 5 _) (dedupFirstAux_nodup [] base)
  · exact List.length_take_le 5 _

theorem create_fallback_food_items_eq (q : Str) (foods prods : List Str)
    (sample : List Str → Nat → List Str) :
    (create_fallback_suggestions q foods prods sample).food_items
      = (dedupFirst (if keywordMatches (keywordBuckets (pyLower q)).1 foods = [] ∧ foods ≠ []
          then sample foods (min 3 foods.length)
          else keywordMatches (keywordBuckets (pyLower q)).1 foods)).take 5 := rfl

theorem create_fallback_products_eq (q : Str) (foods prods : List Str)
    (sample : List Str → Nat → List Str) :
    (create_fallback_suggestions q foods prods sample).products
      = (dedupFirst (if keywordMatches (keywordBuckets (pyLower q)).2 prods = [] ∧ prods ≠ []
          then sample prods (min 3 prods.length)
          else keywordMatches (keywordBuckets (pyLower q)).2 prods)).take 5 := rfl

/-- C3: for any request text and nonempty catalog lists (and any sampler
meeting the `random.sample` contract), the fallback engine returns a
SuggestionSet whose lists are nonempty, drawn from the corresponding catalog
list, duplicate-free, and of length at most 5.  The function is total and
takes no backend parameter: it never calls the generative backend and never
fails. -/
theorem c3_fallback_guarantees (user_query : Str) (foods prods : List Str)
    (sample : List Str → Nat → List Str)
    (hf : foods ≠ []) (hp : prods ≠ []) (hs : sampleOK sample) :
    (create_fallback_suggestions user_query foods prods sample).food_items ≠ [] ∧
    (create_fallback_suggestions user_query foods prods sample).products ≠ [] ∧
    (∀ x ∈ (create_fallback_suggestions user_query foods prods sample).food_items, x ∈ foods) ∧
    (∀ x ∈ (create_fallback_suggestions user_query foods prods sample).products, x ∈ prods) ∧
    (create_fallback_suggestions user_query foods prods sample).food_items.Nodup ∧
    (create_fallback_suggestions user_query foods prods sample).products.Nodup ∧
    (create_fallback_suggestions user_query foods prods sample).food_items.length ≤ 5 ∧
    (create_fallback_suggestions user_query foods prods sample).products.length ≤ 5 := by
  have hfb := chosen_base_ok (keywordBuckets (pyLower user_query)).1 foods sample hf hs
  have hpb := chosen_base_ok (keywordBuckets (pyLower user_query)).2 prods sample hp hs
  have h1 := dedup_take_core _ foods hfb.1 hfb.2
  have h2 := dedup_take_core _ prods hpb.1 hpb.2
  rw [create_fallback_food_items_eq, create_fallback_products_eq]
  exact ⟨h1.1, h2.1, h1.2.1, h2.2.1, h1.2.2.1, h2.2.2.1, h1.2.2.2, h2.2.2.2⟩

theorem takeSampler_sampleOK : sampleOK takeSampler := by
  intro l k
  constructor
  · intro x hx
    exact List.take_subset k l hx
  · intro hne hk
    cases l with
    | nil => exact absurd rfl hne
    | cons y ys =>
      cases k with
      | zero => omega
      | succ k => simp [takeSampler]

theorem c3_witness :
    (create_fallback_suggestions "birthday party for 10 kids".data
        ["Chocolate Cake".data, "Veggie Pizza".data]
        ["Party Poppers".data, "LED String Lights".data] takeSampler).food_items ≠ [] ∧
    (create_fallback_suggestions "birthday party for 10 kids".data
        ["Chocolate Cake".data, "Veggie Pizza".data]
        ["Party Poppers".data, "LED String Lights".data] takeSampler).products ≠ [] ∧
    (∀ x ∈ (create_fallback_suggestions "birthday party for 10 kids".data
        ["Chocolate Cake".data, "Veggie Pizza".data]
        ["Party Poppers".data, "LED String Lights".data] takeSampler).food_items,
      x ∈ ["Chocolate Cake".data, "Veggie Pizza".data]) ∧
    (∀ x ∈ (create_fallback_suggestions "birthday party for 10 kids".data
        ["Chocolate Cake".data, "Veggie Pizza".data]
        ["Party Poppers".data, "LED String Lights".data] takeSampler).products,
      x ∈ ["Party Poppers".data, "LED String Lights".data]) ∧
    (create_fallback_suggestions "birthday party for 10 kids".data
        ["Chocolate Cake".data, "Veggie Pizza".data]
        ["Party Poppers".data, "LED String Lights".data] takeSampler).food_items.Nodup ∧
    (create_fallback_suggestions "birthday party for 10 kids".data
        ["Chocolate Cake".data, "Veggie Pizza".data]
        ["Party Poppers".data, "LED String Lights".data] takeSampler).products.Nodup ∧
    (create_fallback_suggestions "birthday party for 10 kids".data
        ["Chocolate Cake".data, "Veggie Pizza".data]
        ["Party Poppers".data, "LED String Lights".data] takeSampler).food_items.length ≤ 5 ∧
    (create_fallback_suggestions "birthday party for 10 kids".data
        ["Chocolate Cake".data, "Veggie Pizza".data]
        ["Party Poppers".data, "LED String Lights".data] takeSampler).products.length ≤ 5 :=
  c3_fallback_guarantees "birthday party for 10 kids".data
    ["Chocolate Cake".data, "Veggie Pizza".data]
    ["Party Poppers".data, "LED String Lights".data] takeSampler
    (by decide) (by decide) takeSampler_sampleOK

/-- C8: every entry of `fetch_food_search_results` maps a queried name to at
most 3 records, each matching the name case-insensitively, ordered by review
descending with NULL reviews last (the order relation ranks NULL as bottom). -/
theorem c8_food_search_shape (conn : Option (List FoodRow)) (item_list : List Str) :
    ∀ pr ∈ fetch_food_search_results conn item_list,
      pr.2.length ≤ 3 ∧ (∀ r ∈ pr.2, pyLower r.name = pyLower pr.1) ∧
      List.Sorted foodDescOrder pr.2 := by
  intro pr hpr
  cases conn with
  | none =>
    simp only [fetch_food_search_results] at hpr
    obtain ⟨it, hit, rfl⟩ := List.mem_map.mp hpr
    exact ⟨by simp, by simp, by simp [List.Sorted]⟩
  | some table =>
    simp only [fetch_food_search_results] at hpr
    obtain ⟨it, hit, rfl⟩ := List.mem_map.mp hpr
    refine ⟨List.length_take_le 3 _, ?_, ?_⟩
    · intro r hr
      have h1 : r ∈ (table.filter (fun r => pyLower r.name = pyLower it)).insertionSort
          foodDescOrder := List.take_subset 3 _ hr
      have h2 : r ∈ table.filter (fun r => pyLower r.name = pyLower it) :=
        ((List.perm_insertionSort foodDescOrder _).mem_iff).mp h1
      exact of_decide_eq_true (List.mem_filter.mp h2).2
    · exact List.Pairwise.sublist (List.take_sublist 3 _)
        (List.sorted_insertionSort foodDescOrder _)

theorem c8_witness :
    ("Pizza".data, exPizzaRows) ∈ fetch_food_search_results (some exTable) ["Pizza".data] ∧
    (("Pizza".data, exPizzaRows) : Str × List FoodRow).2.length ≤ 3 ∧
    (∀ r ∈ (("Pizza".data, exPizzaRows) : Str × List FoodRow).2,
      pyLower r.name = pyLower (("Pizza".data, exPizzaRows) : Str × List FoodRow).1) ∧
    List.Sorted foodDescOrder (("Pizza".data, exPizzaRows) : Str × List FoodRow).2 :=
  ⟨by decide,
   c8_food_search_shape (some exTable) ["Pizza".data] ("Pizza".data, exPizzaRows) (by decide)⟩

/-! ### Helper lemmas for the extraction equivalence (C6) -/

theorem isPrefixOf_eq_true_iff (p s : Str) : p.isPrefixOf s = true ↔ ∃ r, s = p ++ r := by
  induction p generalizing s with
  | nil => simp [List.isPrefixOf]
  | cons x p ih =>
    cases s with
    | nil => simp [List.isPrefixOf]
    | cons c cs =>
      simp only [List.isPrefixOf, Bool.and_eq_true, beq_iff_eq, ih, List.cons_append]
      constructor
      · rintro ⟨rfl, r, rfl⟩
        exact ⟨r, rfl⟩
      · rintro ⟨r, h⟩
        injection h with h1 h2
        exact ⟨h1.symm, r, h2⟩

theorem hasSubstr_eq_true_iff (pat s : Str) :
    hasSubstr pat s = true ↔ ∃ a b, s = a ++ pat ++ b := by
  induction s with
  | nil =>
    show (pat.isPrefixOf [] = true) ↔ _
    rw [isPrefixOf_eq_true_iff]
    constructor
    · rintro ⟨r, hr⟩
      exact ⟨[], r, by simpa using hr⟩
    · rintro ⟨a, b, h⟩
      rcases List.append_eq_nil.mp (List.append_eq_nil.mp h.symm).1 with ⟨ha, hp⟩
      exact ⟨[], by simp [hp]⟩
  | cons c cs ih =>
    show (pat.isPrefixOf (c :: cs) || hasSubstr pat cs) = true ↔ _
    rw [Bool.or_eq_true, isPrefixOf_eq_true_iff, ih]
    constructor
    · rintro (⟨r, hr⟩ | ⟨a, b, hab⟩)
      · exact ⟨[], r, by simpa using hr⟩
      · exact ⟨c :: a, b, by simp [hab]⟩
    · rintro ⟨a, b, hab⟩
      cases a with
      | nil => exact Or.inl ⟨b, by simpa using hab⟩
      | cons d a' =>
        right
        simp only [List.cons_append, List.append_assoc] at hab
        injection hab with h1 h2
        exact ⟨a', b, by simp [h2]⟩

theorem hasSubstr_of_infix (pat m a b : Str) (h : hasSubstr pat m = true) :
    hasSubstr pat (a ++ m ++ b) = true := by
  obtain ⟨x, y, rfl⟩ := (hasSubstr_eq_true_iff pat m).mp h
  exact (hasSubstr_eq_true_iff pat _).mpr ⟨a ++ x, y ++ b, by simp⟩

theorem rstrip_decomp (u : Str) : u = rstripStr u ++ (u.reverse.takeWhile isPyWs).reverse := by
  conv_lhs => rw [← List.reverse_reverse u, ← List.takeWhile_append_dropWhile isPyWs u.reverse]
  rw [List.reverse_append]
  rfl

theorem pyStrip_infix (s : Str) : ∃ pre post, s = pre ++ pyStrip s ++ post := by
  refine ⟨s.takeWhile isPyWs, ((lstripStr s).reverse.takeWhile isPyWs).reverse, ?_⟩
  have h1 : s = s.takeWhile isPyWs ++ lstripStr s :=
    (List.takeWhile_append_dropWhile isPyWs s).symm
  have h2 : lstripStr s = pyStrip s ++ ((lstripStr s).reverse.takeWhile isPyWs).reverse :=
    rstrip_decomp (lstripStr s)
  rw [List.append_assoc, ← h2]
  exact h1


theorem hasSubstr_pyStrip (pat s : Str) (h : hasSubstr pat (pyStrip s) = true) :
    hasSubstr pat s = true := by
  obtain ⟨pre, post, hs⟩ := pyStrip_infix s
  rw [hs]
  exact hasSubstr_of_infix pat (pyStrip s) pre post h

theorem lstrip_cons_ws (c : Char) (v : Str) (h : isPyWs c = true) :
    lstripStr (c :: v) = lstripStr v := by
  simp [lstripStr, List.dropWhile_cons, h]

theorem lstrip_cons_nonws (c : Char) (v : Str) (h : isPyWs c = false) :
    lstripStr (c :: v) = c :: v := by
  simp [lstripStr, List.dropWhile_cons, h]

theorem rstrip_append_ws (v : Str) (c : Char) (h : isPyWs c = true) :
    rstripStr (v ++ [c]) = rstripStr v := by
  simp [rstripStr, List.reverse_append, List.dropWhile_cons, h]

theorem lstrip_append (u w : Str) :
    lstripStr (u ++ w) = if lstripStr u = [] then lstripStr w else lstripStr u ++ w := by
  induction u with
  | nil => simp [lstripStr]
  | cons c u' ih =>
    by_cases hc : isPyWs c = true
    · rw [List.cons_append, lstrip_cons_ws c _ hc, lstrip_cons_ws c _ hc, ih]
    · have hc' : isPyWs c = false := by
        cases hcc : isPyWs c
        · rfl
        · exact absurd hcc hc
      rw [List.cons_append, lstrip_cons_nonws c _ hc', lstrip_cons_nonws c _ hc']
      simp

theorem lstrip_idem (s : Str) : lstripStr (lstripStr s) = lstripStr s := by
  induction s with
  | nil => rfl
  | cons c v ih =>
    cases hc : isPyWs c
    · rw [lstrip_cons_nonws c v hc, lstrip_cons_nonws c v hc]
    · rw [lstrip_cons_ws c v hc, ih]

theorem pyStrip_cons_ws (c : Char) (v : Str) (h : isPyWs c = true) :
    pyStrip (c :: v) = pyStrip v := by
  unfold pyStrip
  rw [lstrip_cons_ws c v h]

theorem pyStrip_append_ws (v : Str) (c : Char) (h : isPyWs c = true) :
    pyStrip (v ++ [c]) = pyStrip v := by
  unfold pyStrip
  rw [lstrip_append]
  by_cases h0 : lstripStr v = []
  · rw [if_pos h0, h0]
    have : lstripStr [c] = [] := by simp [lstripStr, List.dropWhile_cons, h]
    rw [this]
  · rw [if_neg h0, rstrip_append_ws _ c h]

theorem pyStrip_lstrip (t : Str) : pyStrip (lstripStr t) = pyStrip t := by
  unfold pyStrip
  rw [lstrip_idem]

theorem lstrip_eq_self (s : Str) (h : ∀ c rest, s = c :: rest → isPyWs c = false) :
    lstripStr s = s := by
  cases s with
  | nil => rfl
  | cons c rest => exact lstrip_cons_nonws c rest (h c rest rfl)

theorem rstrip_eq_self (s : Str) (h : ∀ c rest, s.reverse = c :: rest → isPyWs c = false) :
    rstripStr s = s := by
  unfold rstripStr
  cases hrev : s.reverse with
  | nil =>
    rw [List.dropWhile_nil, ← hrev, List.reverse_reverse]
  | cons c rest =>
    rw [List.dropWhile_cons, h c rest hrev]
    simp [← hrev]

theorem pyStrip_eq_self (s : Str)
    (h1 : ∀ c rest, s = c :: rest → isPyWs c = false)
    (h2 : ∀ c rest, s.reverse = c :: rest → isPyWs c = false) :
    pyStrip s = s := by
  unfold pyStrip
  rw [lstrip_eq_self s h1, rstrip_eq_self s h2]

theorem replaceAllAux_nil (n : Nat) (pat repl : Str) : replaceAllAux n pat repl [] = [] := by
  cases n <;> rfl

theorem replaceAllAux_no_occ (pat repl : Str) :
    ∀ (n : Nat) (s : Str), hasSubstr pat s = false → replaceAllAux n pat repl s = s := by
  intro n
  induction n with
  | zero => intro s h; rfl
  | succ m ih =>
    intro s h
    cases s with
    | nil => rfl
    | cons c cs =>
      have h2 : (pat.isPrefixOf (c :: cs) || hasSubstr pat cs) = false := h
      rw [Bool.or_eq_false_iff] at h2
      show (if pat.isPrefixOf (c :: cs) = true then _ else _) = _
      rw [if_neg (by rw [h2.1]; exact Bool.false_ne_true)]
      rw [ih cs h2.2]

theorem replaceAllAux_head_ticks (n : Nat) (repl u : Str) :
    replaceAllAux (n + 1) ticks repl (ticks ++ u) = repl ++ replaceAllAux n ticks repl u := by
  simp [replaceAllAux, ticks, List.isPrefixOf]

theorem replaceAllAux_head_ticksJson (n : Nat) (repl u : Str) :
    replaceAllAux (n + 1) ticksJson repl (ticksJson ++ u)
      = repl ++ replaceAllAux n ticksJson repl u := by
  simp [replaceAllAux, ticksJson, List.isPrefixOf]

theorem rep_ticks_eats (m : Nat) : replaceAllAux (m + 1) ticks [] ticks = [] := by
  simp [replaceAllAux, ticks, List.isPrefixOf, replaceAllAux_nil]

theorem replaceAllAux_append (pat repl a b : Str) (n : Nat)
    (h : ∀ a1 a2 : Str, a = a1 ++ a2 → a2 ≠ [] → pat.isPrefixOf (a2 ++ b) = false) :
    replaceAllAux (a.length + n) pat repl (a ++ b) = a ++ replaceAllAux n pat repl b := by
  induction a generalizing n with
  | nil => simp
  | cons c a' ih =>
    have hlen : (c :: a').length + n = (a'.length + n) + 1 := by simp; omega
    rw [hlen]
    have hpre : ¬(pat.isPrefixOf (c :: (a' ++ b)) = true) := by
      have hh : pat.isPrefixOf ((c :: a') ++ b) = false := h [] (c :: a') rfl (by simp)
      rw [show (c :: (a' ++ b) : Str) = (c :: a') ++ b from rfl, hh]
      exact Bool.false_ne_true
    show (if pat.isPrefixOf (c :: (a' ++ b)) = true then _ else _) = _
    rw [if_neg hpre]
    have ih2 := ih n (fun a1 a2 ha hne => h (c :: a1) a2 (by rw [ha]; rfl) hne)
    show c :: replaceAllAux (a'.length + n) pat repl (a' ++ b) = _
    rw [ih2]
    rfl

/-- Core occurrence analysis: in `t ++ "\n```"` with no fence marker in `t`,
the only occurrence of "```" is the final one. -/
theorem ticks_core (t : Str) (h : hasSubstr ticks t = false) :
    ∀ a b : Str, t ++ '\n' :: ticks = a ++ ticks ++ b → b = [] := by
  induction t with
  | nil =>
    intro a b hab
    cases a with
    | nil =>
      simp only [List.nil_append, List.append_assoc] at hab
      rw [show ticks = tickChar :: tickChar :: [tickChar] from rfl] at hab
      injection hab with h1 h2
      exact absurd h1 (by decide)
    | cons c a' =>
      simp only [List.nil_append, List.cons_append] at hab
      injection hab with h1 h2
      have hlen := congrArg List.length h2
      simp [ticks] at hlen
      have hb : b.length = 0 := by omega
      exact List.length_eq_zero.mp hb
  | cons c t' ih =>
    intro a b hab
    have h2 : (ticks.isPrefixOf (c :: t') || hasSubstr ticks t') = false := h
    rw [Bool.or_eq_false_iff] at h2
    cases a with
    | nil =>
      simp only [List.nil_append, List.cons_append, List.append_assoc] at hab
      rw [show ticks = tickChar :: tickChar :: [tickChar] from rfl] at hab
      injection hab with hc hab2
      cases t' with
      | nil =>
        simp only [List.nil_append] at hab2
        injection hab2 with hd hab3
        exact absurd hd (by decide)
      | cons d t'' =>
        simp only [List.cons_append] at hab2
        injection hab2 with hd hab3
        cases t'' with
        | nil =>
          simp only [List.nil_append] at hab3
          injection hab3 with he hab4
          exact absurd he (by decide)
        | cons e t3 =>
          simp only [List.cons_append] at hab3
          injection hab3 with he hab4
          subst hc; subst hd; subst he
          simp [hasSubstr, ticks, List.isPrefixOf] at h2
    | cons c0 a' =>
      simp only [List.cons_append, List.append_assoc] at hab
      injection hab with h1 hab2
      exact ih h2.2 a' b (by rw [hab2]; simp)

theorem ticks_core_nl (t : Str) (h : hasSubstr ticks t = false) :
    ∀ a b : Str, '\n' :: (t ++ '\n' :: ticks) = a ++ ticks ++ b → b = [] := by
  intro a b hab
  cases a with
  | nil =>
    simp only [List.nil_append] at hab
    rw [show ticks = tickChar :: tickChar :: [tickChar] from rfl] at hab
    injection hab with h1 h2
    exact absurd h1 (by decide)
  | cons c a' =>
    simp only [List.cons_append] at hab
    injection hab with h1 hab2
    exact ticks_core t h a' b (by rw [hab2])

theorem no_ticksJson_tail (t : Str) (h : hasSubstr ticks t = false) :
    hasSubstr ticksJson ('\n' :: (t ++ '\n' :: ticks)) = false := by
  cases hc : hasSubstr ticksJson ('\n' :: (t ++ '\n' :: ticks)) with
  | false => rfl
  | true =>
    obtain ⟨a, b, hab⟩ := (hasSubstr_eq_true_iff _ _).mp hc
    have hab2 : '\n' :: (t ++ '\n' :: ticks)
        = a ++ ticks ++ ('j' :: 's' :: 'o' :: 'n' :: b) := by
      rw [hab]
      simp [ticksJson, ticks]
    have hnil := ticks_core_nl t h a _ hab2
    exact absurd hnil (by simp)

theorem noStart_ticks (t : Str) (h : hasSubstr ticks t = false) :
    ∀ a1 a2 : Str, '\n' :: (t ++ ['\n']) = a1 ++ a2 → a2 ≠ [] →
      ticks.isPrefixOf (a2 ++ ticks) = false := by
  intro a1 a2 ha hne
  cases hc : ticks.isPrefixOf (a2 ++ ticks) with
  | false => rfl
  | true =>
    obtain ⟨r, hr⟩ := (isPrefixOf_eq_true_iff _ _).mp hc
    have hx : '\n' :: (t ++ '\n' :: ticks) = a1 ++ ticks ++ r := by
      calc '\n' :: (t ++ '\n' :: ticks) = ('\n' :: (t ++ ['\n'])) ++ ticks := by simp
        _ = a1 ++ (a2 ++ ticks) := by rw [ha]; simp
        _ = a1 ++ (ticks ++ r) := by rw [hr]
        _ = a1 ++ ticks ++ r := by simp
    have hrnil := ticks_core_nl t h a1 r hx
    subst hrnil
    have ha2 : a2 ++ ticks = [] ++ ticks := by simpa using hr
    exact absurd (List.append_cancel_right ha2) hne

theorem rep_ticksJson_wrapJson (t : Str) (h : hasSubstr ticks t = false) :
    replaceAll ticksJson [] (wrapJson t) = '\n' :: (t ++ '\n' :: ticks) := by
  unfold replaceAll wrapJson
  have hlen : (ticksJson ++ '\n' :: (t ++ '\n' :: ticks)).length = (t.length + 11) + 1 := by
    simp [ticksJson, ticks]
  rw [hlen, replaceAllAux_head_ticksJson,
    replaceAllAux_no_occ ticksJson [] (t.length + 11) _ (no_ticksJson_tail t h)]
  rfl

theorem rep_ticks_tail (t : Str) (h : hasSubstr ticks t = false) (n : Nat) :
    replaceAllAux (('\n' :: (t ++ ['\n'])).length + (n + 1)) ticks []
      ('\n' :: (t ++ '\n' :: ticks)) = '\n' :: (t ++ ['\n']) := by
  have hshape : '\n' :: (t ++ '\n' :: ticks) = ('\n' :: (t ++ ['\n'])) ++ ticks := by simp
  rw [hshape, replaceAllAux_append ticks [] _ ticks (n + 1) (noStart_ticks t h),
    rep_ticks_eats n]
  simp

theorem rep_ticks_nl_tail (t : Str) (h : hasSubstr ticks t = false) :
    replaceAll ticks [] ('\n' :: (t ++ '\n' :: ticks)) = '\n' :: (t ++ ['\n']) := by
  unfold replaceAll
  have hlen : ('\n' :: (t ++ '\n' :: ticks)).length = ('\n' :: (t ++ ['\n'])).length + (2 + 1) := by
    simp [ticks]
  rw [hlen]
  exact rep_ticks_tail t h 2

theorem rep_ticks_wrapPlain (t : Str) (h : hasSubstr ticks t = false) :
    replaceAll ticks [] (wrapPlain t) = '\n' :: (t ++ ['\n']) := by
  unfold replaceAll wrapPlain
  have hlen : (ticks ++ '\n' :: (t ++ '\n' :: ticks)).length
      = (('\n' :: (t ++ ['\n'])).length + (4 + 1)) + 1 := by
    simp [ticks]
  rw [hlen, replaceAllAux_head_ticks]
  rw [rep_ticks_tail t h 4]
  rfl

theorem hasSubstr_of_ticksJson_prefix (s : Str) (hp : ticksJson.isPrefixOf s = true) :
    hasSubstr ticks s = true := by
  obtain ⟨r, rfl⟩ := (isPrefixOf_eq_true_iff _ _).mp hp
  exact (hasSubstr_eq_true_iff _ _).mpr ⟨[], 'j' :: 's' :: 'o' :: 'n' :: r, by
    simp [ticksJson, ticks]⟩

theorem hasSubstr_of_ticks_prefix (s : Str) (hp : ticks.isPrefixOf s = true) :
    hasSubstr ticks s = true := by
  obtain ⟨r, rfl⟩ := (isPrefixOf_eq_true_iff _ _).mp hp
  exact (hasSubstr_eq_true_iff _ _).mpr ⟨[], r, by simp⟩

theorem hasSubstr_of_ticks_suffix (s : Str) (hp : pyEndsWith ticks s = true) :
    hasSubstr ticks s = true := by
  obtain ⟨r, hr⟩ := (isPrefixOf_eq_true_iff _ _).mp hp
  have hs : s = r.reverse ++ ticks := by
    have := congrArg List.reverse hr
    simpa [ticks] using this
  exact (hasSubstr_eq_true_iff _ _).mpr ⟨r.reverse, [], by simp [hs]⟩

/-- Under no fence marker in the stripped text, neither cleanup branch fires. -/
theorem hasSubstr_ticks_pyStrip_false (t : Str) (h : hasSubstr ticks t = false) :
    hasSubstr ticks (pyStrip t) = false := by
  cases hc : hasSubstr ticks (pyStrip t) with
  | false => rfl
  | true =>
    have := hasSubstr_pyStrip ticks t hc
    rw [h] at this
    exact Bool.noConfusion this

theorem not_prefix_ticksJson_of_clean (s : Str) (h : hasSubstr ticks s = false) :
    ticksJson.isPrefixOf s = false := by
  cases hc : ticksJson.isPrefixOf s with
  | false => rfl
  | true =>
    have := hasSubstr_of_ticksJson_prefix s hc
    rw [h] at this
    exact Bool.noConfusion this

theorem not_prefix_ticks_of_clean (s : Str) (h : hasSubstr ticks s = false) :
    ticks.isPrefixOf s = false := by
  cases hc : ticks.isPrefixOf s with
  | false => rfl
  | true =>
    have := hasSubstr_of_ticks_prefix s hc
    rw [h] at this
    exact Bool.noConfusion this

theorem not_suffix_ticks_of_clean (s : Str) (h : hasSubstr ticks s = false) :
    pyEndsWith ticks s = false := by
  cases hc : pyEndsWith ticks s with
  | false => rfl
  | true =>
    have := hasSubstr_of_ticks_suffix s hc
    rw [h] at this
    exact Bool.noConfusion this

theorem pyStrip_wrapJson (t : Str) : pyStrip (wrapJson t) = wrapJson t := by
  apply pyStrip_eq_self
  · intro c rest hc
    have h0 : wrapJson t = tickChar :: (tickChar :: tickChar :: 'j' :: 's' :: 'o' :: 'n' ::
        ('\n' :: (t ++ '\n' :: ticks))) := rfl
    rw [h0] at hc
    injection hc with h1 h2
    rw [← h1]
    decide
  · intro c rest hc
    have hsnoc : wrapJson t
        = (ticksJson ++ '\n' :: (t ++ '\n' :: [tickChar, tickChar])) ++ [tickChar] := by
      simp [wrapJson, ticks]
    rw [hsnoc, List.reverse_append] at hc
    simp only [List.reverse_cons, List.reverse_nil, List.nil_append,
      List.singleton_append] at hc
    injection hc with h1 h2
    rw [← h1]
    decide

theorem pyStrip_wrapPlain (t : Str) : pyStrip (wrapPlain t) = wrapPlain t := by
  apply pyStrip_eq_self
  · intro c rest hc
    have h0 : wrapPlain t = tickChar :: (tickChar :: tickChar ::
        ('\n' :: (t ++ '\n' :: ticks))) := rfl
    rw [h0] at hc
    injection hc with h1 h2
    rw [← h1]
    decide
  · intro c rest hc
    have hsnoc : wrapPlain t
        = (ticks ++ '\n' :: (t ++ '\n' :: [tickChar, tickChar])) ++ [tickChar] := by
      simp [wrapPlain, ticks]
    rw [hsnoc, List.reverse_append] at hc
    simp only [List.reverse_cons, List.reverse_nil, List.nil_append,
      List.singleton_append] at hc
    injection hc with h1 h2
    rw [← h1]
    decide

/-- pyStrip of "\n" ++ t ++ "\n```": the fenced tail survives the strip. -/
theorem pyStrip_tail_ticks (t : Str) :
    pyStrip ('\n' :: (t ++ '\n' :: ticks))
      = if lstripStr t = [] then ticks else lstripStr t ++ '\n' :: ticks := by
  unfold pyStrip
  rw [lstrip_cons_ws _ _ (by decide)]
  rw [show (t ++ '\n' :: ticks : Str) = t ++ ('\n' :: ticks) from rfl, lstrip_append]
  by_cases h0 : lstripStr t = []
  · rw [if_pos h0, if_pos h0]
    rw [show lstripStr ('\n' :: ticks) = ticks from by decide]
    exact (by decide : rstripStr ticks = ticks)
  · rw [if_neg h0, if_neg h0]
    apply rstrip_eq_self
    intro c rest hc
    rw [show ((lstripStr t ++ '\n' :: ticks : Str)).reverse
        = tickChar :: tickChar :: tickChar :: ('\n' :: (lstripStr t).reverse)
        from by simp [ticks]] at hc
    injection hc with h1 h2
    rw [← h1]
    decide

theorem pyEndsWith_ticks_tail (u : Str) : pyEndsWith ticks (u ++ '\n' :: ticks) = true := by
  unfold pyEndsWith
  rw [show ((u ++ '\n' :: ticks : Str)).reverse
      = tickChar :: tickChar :: tickChar :: ('\n' :: u.reverse) from by simp [ticks]]
  simp [ticks, List.isPrefixOf]

theorem cleanupSuggestion_wrapJson (t : Str) (h : hasSubstr ticks t = false) :
    cleanupSuggestion (wrapJson t) = pyStrip t := by
  unfold cleanupSuggestion
  rw [if_pos ((isPrefixOf_eq_true_iff ticksJson (wrapJson t)).mpr
    ⟨'\n' :: (t ++ '\n' :: ticks), rfl⟩)]
  rw [rep_ticksJson_wrapJson t h, rep_ticks_nl_tail t h]
  rw [show ('\n' :: (t ++ ['\n']) : Str) = '\n' :: (t ++ ['\n']) from rfl]
  rw [pyStrip_cons_ws _ _ (by decide), pyStrip_append_ws t '\n' (by decide)]

theorem cleanupSuggestion_wrapPlain (t : Str) (h : hasSubstr ticks t = false) :
    cleanupSuggestion (wrapPlain t) = pyStrip t := by
  unfold cleanupSuggestion
  rw [if_neg (by rw [show ticksJson.isPrefixOf (wrapPlain t) = false from by
    simp [ticksJson, wrapPlain, ticks, List.isPrefixOf, tickChar]]; exact Bool.false_ne_true)]
  rw [if_pos ((isPrefixOf_eq_true_iff ticks (wrapPlain t)).mpr
    ⟨'\n' :: (t ++ '\n' :: ticks), rfl⟩)]
  rw [rep_ticks_wrapPlain t h]
  rw [pyStrip_cons_ws _ _ (by decide), pyStrip_append_ws t '\n' (by decide)]

theorem cleanupSuggestion_clean (s : Str) (h : hasSubstr ticks s = false) :
    cleanupSuggestion s = s := by
  unfold cleanupSuggestion
  rw [if_neg (by rw [not_prefix_ticksJson_of_clean s h]; exact Bool.false_ne_true)]
  rw [if_neg (by rw [not_prefix_ticks_of_clean s h]; exact Bool.false_ne_true)]

theorem cleanupFinal1_wrapJson (t : Str) (h : hasSubstr ticks t = false) :
    cleanupFinal1 (wrapJson t)
      = if lstripStr t = [] then ticks else lstripStr t ++ '\n' :: ticks := by
  unfold cleanupFinal1
  rw [if_pos ((isPrefixOf_eq_true_iff ticksJson (wrapJson t)).mpr
    ⟨'\n' :: (t ++ '\n' :: ticks), rfl⟩)]
  rw [rep_ticksJson_wrapJson t h, pyStrip_tail_ticks t]

theorem cleanupFinal_wrapJson (t : Str) (h : hasSubstr ticks t = false) :
    cleanupFinal (wrapJson t) = pyStrip t := by
  unfold cleanupFinal
  rw [cleanupFinal1_wrapJson t h]
  by_cases h0 : lstripStr t = []
  · rw [if_pos h0]
    rw [if_pos (by decide : pyEndsWith ticks ticks = true)]
    rw [show (ticks.take (ticks.length - 3) : Str) = [] from by decide]
    rw [show pyStrip ([] : Str) = [] from rfl]
    unfold pyStrip
    rw [h0]
    rfl
  · rw [if_neg h0]
    rw [if_pos (pyEndsWith_ticks_tail (lstripStr t))]
    have hshape : lstripStr t ++ '\n' :: ticks = (lstripStr t ++ ['\n']) ++ ticks := by simp
    rw [hshape]
    have hlen : ((lstripStr t ++ ['\n']) ++ ticks).length - 3 = (lstripStr t ++ ['\n']).length := by
      simp [ticks]
    rw [hlen, List.take_left]
    rw [pyStrip_append_ws _ '\n' (by decide), pyStrip_lstrip]

theorem cleanupFinal1_wrapPlain (t : Str) (h : hasSubstr ticks t = false) :
    cleanupFinal1 (wrapPlain t) = pyStrip t := by
  unfold cleanupFinal1
  rw [if_neg (by rw [show ticksJson.isPrefixOf (wrapPlain t) = false from by
    simp [ticksJson, wrapPlain, ticks, List.isPrefixOf, tickChar]]; exact Bool.false_ne_true)]
  rw [if_pos ((isPrefixOf_eq_true_iff ticks (wrapPlain t)).mpr
    ⟨'\n' :: (t ++ '\n' :: ticks), rfl⟩)]
  rw [rep_ticks_wrapPlain t h]
  rw [pyStrip_cons_ws _ _ (by decide), pyStrip_append_ws t '\n' (by decide)]

theorem cleanupFinal_wrapPlain (t : Str) (h : hasSubstr ticks t = false) :
    cleanupFinal (wrapPlain t) = pyStrip t := by
  unfold cleanupFinal
  rw [cleanupFinal1_wrapPlain t h]
  rw [if_neg (by
    rw [not_suffix_ticks_of_clean (pyStrip t) (hasSubstr_ticks_pyStrip_false t h)]
    exact Bool.false_ne_true)]

theorem cleanupFinal_clean (s : Str) (h : hasSubstr ticks s = false) :
    cleanupFinal s = s := by
  have h1 : cleanupFinal1 s = s := by
    unfold cleanupFinal1
    rw [if_neg (by rw [not_prefix_ticksJson_of_clean s h]; exact Bool.false_ne_true)]
    rw [if_neg (by rw [not_prefix_ticks_of_clean s h]; exact Bool.false_ne_true)]
  unfold cleanupFinal
  rw [h1]
  rw [if_neg (by rw [not_suffix_ticks_of_clean s h]; exact Bool.false_ne_true)]

/-- C6 (amended): for every text that parses as JSON and contains no fenced
code marker (three consecutive backticks), extraction of the wrapped text
(with or without a language tag) agrees with extraction of the unwrapped
text in both the Suggestion Stage and the Final Selection Stage.  Texts
containing the marker are corrupted by the replace-all stripping (see the
counterexample). -/
theorem c6_fence_strip_equiv (t : Str) (v : JsonVal) (h : hasSubstr ticks t = false)
    (hv : json_loads (pyStrip t) = some v) :
    extract_suggestion (wrapJson t) = some v ∧
    extract_suggestion (wrapPlain t) = some v ∧
    extract_suggestion t = some v ∧
    extract_final_sel (wrapJson t) = v ∧
    extract_final_sel (wrapPlain t) = v ∧
    extract_final_sel t = v := by
  have hps : hasSubstr ticks (pyStrip t) = false := hasSubstr_ticks_pyStrip_false t h
  have hladder : jsonExtractLadder (pyStrip t) = some v := by
    unfold jsonExtractLadder
    rw [hv]
  refine ⟨?_, ?_, ?_, ?_, ?_, ?_⟩
  · unfold extract_suggestion
    rw [pyStrip_wrapJson, cleanupSuggestion_wrapJson t h, hladder]
  · unfold extract_suggestion
    rw [pyStrip_wrapPlain, cleanupSuggestion_wrapPlain t h, hladder]
  · unfold extract_suggestion
    rw [cleanupSuggestion_clean (pyStrip t) hps, hladder]
  · unfold extract_final_sel
    rw [pyStrip_wrapJson, cleanupFinal_wrapJson t h, hladder]
  · unfold extract_final_sel
    rw [pyStrip_wrapPlain, cleanupFinal_wrapPlain t h, hladder]
  · unfold extract_final_sel
    rw [cleanupFinal_clean (pyStrip t) hps, hladder]

theorem c6_witness :
    hasSubstr ticks exT1 = false ∧
    extract_suggestion (wrapJson exT1) = extract_suggestion exT1 ∧
    extract_suggestion (wrapPlain exT1) = extract_suggestion exT1 ∧
    extract_final_sel (wrapJson exT1) = extract_final_sel exT1 ∧
    extract_final_sel (wrapPlain exT1) = extract_final_sel exT1 := by
  have hv : json_loads (pyStrip exT1) = some (JsonVal.obj
      [("food_items".data, JsonVal.arr [JsonVal.str "Cake".data]),
       ("products".data, JsonVal.arr [])]) := rfl
  have hc := c6_fence_strip_equiv exT1 (JsonVal.obj
      [("food_items".data, JsonVal.arr [JsonVal.str "Cake".data]),
       ("products".data, JsonVal.arr [])]) (by decide) hv
  refine ⟨by decide, ?_, ?_, ?_, ?_⟩
  · rw [hc.1, hc.2.2.1]
  · rw [hc.2.1, hc.2.2.1]
  · rw [hc.2.2.2.1, hc.2.2.2.2.2]
  · rw [hc.2.2.2.2.1, hc.2.2.2.2.2]

/-- C6 counterexample: the text `{"a": "```"}` parses as JSON, but wrapping it
in a json-tagged fenced block changes what the Suggestion Stage extracts: the
replace-all fence stripping erases the backticks inside the string value, so
the wrapped and unwrapped extractions disagree. -/
theorem c6_counterexample :
    (json_loads exT0).isSome = true ∧
    strField ((extract_suggestion (wrapJson exT0)).getD JsonVal.null) "a".data = some [] ∧
    strField ((extract_suggestion exT0).getD JsonVal.null) "a".data = some ticks ∧
    extract_suggestion (wrapJson exT0) ≠ extract_suggestion exT0 := by
  refine ⟨rfl, rfl, rfl, ?_⟩
  intro heq
  have h2 : (some ([] : Str)) = some ticks := by
    calc some ([] : Str)
        = strField ((extract_suggestion (wrapJson exT0)).getD JsonVal.null) "a".data := rfl
      _ = strField ((extract_suggestion exT0).getD JsonVal.null) "a".data := by rw [heq]
      _ = some ticks := rfl
  exact absurd (Option.some.inj h2) (by decide)
